import Mathlib

/-!
Verification development for the static bucket server: a shallow embedding of
the bucket-name resolver, configuration loader, session store, rate-limiter
skip logic and the storage-gateway call discipline, with theorems checking the
specification's testable properties against the embedded code.
-/

namespace StaticBucket

/-- Association-list lookup modelling JavaScript `Map.prototype.get`:
the value of the (unique) entry for the key, if present. -/
def mapGet {α : Type} : List (String × α) → String → Option α
  | [], _ => none
  | p :: ps, k => if p.1 = k then some p.2 else mapGet ps k

/-- Association-list update modelling JavaScript `Map.prototype.set`:
replace the entry for the key in place, or append a fresh entry. -/
def mapSet {α : Type} : List (String × α) → String → α → List (String × α)
  | [], k, v => [(k, v)]
  | p :: ps, k, v => if p.1 = k then (k, v) :: ps else p :: mapSet ps k v

/-- Build a map by `set`-ing each pair in order, as the `forEach` loops in
`validateEnv` do. -/
def buildMap {α : Type} (pairs : List (String × α)) : List (String × α) :=
  pairs.foldl (fun m p => mapSet m p.1 p.2) []

/-- Boolean success test on `Except`. -/
def exceptIsOk {ε α : Type} : Except ε α → Bool
  | Except.ok _ => true
  | Except.error _ => false

/-- The validated configuration object produced by `validateEnv`
(src/config/env.ts), restricted to the bucket-registry fields the resolver
reads: the real bucket identifiers, the optional friendly-name list, and the
two derived maps (friendly to actual, actual to friendly). -/
structure Config where
  bucketNames : List String
  friendlyBucketNames : Option (List String)
  bucketNameMap : List (String × String)
  actualBucketMap : List (String × String)
deriving DecidableEq

/-- The empty-entry filter applied to the split-and-trimmed
`FRIENDLY_BUCKET_NAMES` list (part_001 line 44: `.filter(b => b.length > 0)`). -/
def filterFriendly (friendlyRaw : List String) : List String :=
  friendlyRaw.filter (fun b => 0 < b.length)

/-- Embedding of `validateEnv` (part_001 lines 36-69) from the already
split-and-trimmed `BUCKET_NAMES` list and the split-and-trimmed
`FRIENDLY_BUCKET_NAMES` list (whose empty-entry filter is applied here
exactly as in the source). The source checks, in order: an empty bucket
list is fatal; a non-empty friendly list whose count differs from the bucket
count is fatal; otherwise the two maps are built pairwise when friendly names
exist, and as identity maps over the bucket names when they do not.
No duplicate check of any kind is performed. -/
def validateEnv (bucketNames friendlyRaw : List String) : Except String Config :=
  if bucketNames.length = 0 then
    Except.error "BUCKET_NAMES must contain at least one bucket"
  else if 0 < (filterFriendly friendlyRaw).length ∧
          (filterFriendly friendlyRaw).length ≠ bucketNames.length then
    Except.error "FRIENDLY_BUCKET_NAMES count must match BUCKET_NAMES count"
  else if 0 < (filterFriendly friendlyRaw).length then
    Except.ok
      { bucketNames := bucketNames
        friendlyBucketNames := some (filterFriendly friendlyRaw)
        bucketNameMap := buildMap ((filterFriendly friendlyRaw).zip bucketNames)
        actualBucketMap := buildMap (bucketNames.zip (filterFriendly friendlyRaw)) }
  else
    Except.ok
      { bucketNames := bucketNames
        friendlyBucketNames := none
        bucketNameMap := buildMap (bucketNames.zip bucketNames)
        actualBucketMap := buildMap (bucketNames.zip bucketNames) }

/-- Embedding of `S3Service.resolveBucketName` (part_006 lines 43-56): an
exact membership test against the real bucket list first, then a lookup in
the friendly-to-actual map. The source guards the map result with a JS
truthiness test (`if (actualName)`), so an empty-string value is treated as
absent; the `0 < actualName.length` test models that. -/
def resolveBucketName (cfg : Config) (bucketNameOrFriendly : String) : Option String :=
  if bucketNameOrFriendly ∈ cfg.bucketNames then
    some bucketNameOrFriendly
  else
    match mapGet cfg.bucketNameMap bucketNameOrFriendly with
    | some actualName => if 0 < actualName.length then some actualName else none
    | none => none

/-- Embedding of `S3Service.getFriendlyBucketName` (part_006 lines 61-63):
the actual-to-friendly map value when present and truthy, else the input
itself (`config.actualBucketMap.get(actualBucketName) || actualBucketName`). -/
def getFriendlyBucketName (cfg : Config) (actualBucketName : String) : String :=
  match mapGet cfg.actualBucketMap actualBucketName with
  | some friendly => if 0 < friendly.length then friendly else actualBucketName
  | none => actualBucketName

/-- Embedding of `S3Service.validateBucket` (part_006 lines 68-70):
`resolveBucketName(...) !== null`. -/
def validateBucket (cfg : Config) (bucketNameOrFriendly : String) : Bool :=
  (resolveBucketName cfg bucketNameOrFriendly).isSome

/-- Embedding of `S3Service.getActualBucketName` (part_006 lines 75-81):
resolve, and throw `Invalid bucket` when the result is JS-falsy (null or the
empty string). -/
def getActualBucketName (cfg : Config) (bucketNameOrFriendly : String) : Except String String :=
  match resolveBucketName cfg bucketNameOrFriendly with
  | some actual => if 0 < actual.length then Except.ok actual else Except.error "Invalid bucket"
  | none => Except.error "Invalid bucket"

/-- One network command issued to the storage backend by the gateway.
The constructors mirror the AWS SDK commands built in part_006. -/
inductive S3Call where
  | getCmd (bucket key : String)
  | listCmd (bucket pfx : String) (continuationToken : Option String) (maxKeys : Nat) (delimiter : String)
  | putCmd (bucket key : String) (contentType : Option String)
  | deleteCmd (bucket key : String)
  | copyCmd (bucket sourceKey targetKey : String)
deriving DecidableEq

/-- Bucket identifier a backend command is addressed to. -/
def S3Call.bucket : S3Call → String
  | S3Call.getCmd b _ => b
  | S3Call.listCmd b _ _ _ _ => b
  | S3Call.putCmd b _ _ => b
  | S3Call.deleteCmd b _ => b
  | S3Call.copyCmd b _ _ => b

/-- Embedding of `S3Service.getObject` (part_006 lines 86-95) as the trace of
backend commands it issues: resolution happens first, and an `Invalid bucket`
failure issues no command at all. -/
def getObject (cfg : Config) (bucketNameOrFriendly key : String) : Except String (List S3Call) :=
  match getActualBucketName cfg bucketNameOrFriendly with
  | Except.ok actualBucket => Except.ok [S3Call.getCmd actualBucket key]
  | Except.error e => Except.error e

/-- Embedding of `S3Service.listObjects` (part_006 lines 100-115) as its
backend-command trace: a single `ListObjectsV2` with `MaxKeys = 1000` and
delimiter `/` against the resolved bucket. -/
def listObjects (cfg : Config) (bucketNameOrFriendly pfx : String)
    (continuationToken : Option String) : Except String (List S3Call) :=
  match getActualBucketName cfg bucketNameOrFriendly with
  | Except.ok actualBucket =>
      Except.ok [S3Call.listCmd actualBucket pfx continuationToken 1000 "/"]
  | Except.error e => Except.error e

/-- Embedding of `S3Service.uploadFile` (part_006 lines 152-171) as its
backend-command trace: one put of the body against the resolved bucket. -/
def uploadFile (cfg : Config) (bucketNameOrFriendly key : String)
    (contentType : Option String) : Except String (List S3Call) :=
  match getActualBucketName cfg bucketNameOrFriendly with
  | Except.ok actualBucket => Except.ok [S3Call.putCmd actualBucket key contentType]
  | Except.error e => Except.error e

/-- Embedding of `S3Service.deleteFile` (part_006 lines 176-185) as its
backend-command trace. -/
def deleteFile (cfg : Config) (bucketNameOrFriendly key : String) : Except String (List S3Call) :=
  match getActualBucketName cfg bucketNameOrFriendly with
  | Except.ok actualBucket => Except.ok [S3Call.deleteCmd actualBucket key]
  | Except.error e => Except.error e

/-- Embedding of `S3Service.moveFile` (part_006 lines 190-209) as its
backend-command trace: copy source to target, then delete the source, both
against the resolved bucket, with no further cleanup commands. -/
def moveFile (cfg : Config) (bucketNameOrFriendly sourceKey targetKey : String) :
    Except String (List S3Call) :=
  match getActualBucketName cfg bucketNameOrFriendly with
  | Except.ok actualBucket =>
      Except.ok [S3Call.copyCmd actualBucket sourceKey targetKey,
                 S3Call.deleteCmd actualBucket sourceKey]
  | Except.error e => Except.error e

/-- Embedding of `S3Service.copyFile` (part_006 lines 214-224) as its
backend-command trace. -/
def copyFile (cfg : Config) (bucketNameOrFriendly sourceKey targetKey : String) :
    Except String (List S3Call) :=
  match getActualBucketName cfg bucketNameOrFriendly with
  | Except.ok actualBucket => Except.ok [S3Call.copyCmd actualBucket sourceKey targetKey]
  | Except.error e => Except.error e

/-- Modelled from the spec: the storage backend (an external collaborator,
out of scope per section 1) viewed as the set of keys present in one bucket.
A copy requires the source key and adds the target key; a delete removes the
key; reads leave the state unchanged. -/
def execCall (keys : List String) : S3Call → Option (List String)
  | S3Call.copyCmd _ sourceKey targetKey =>
      if sourceKey ∈ keys then
        some (if targetKey ∈ keys then keys else keys ++ [targetKey])
      else none
  | S3Call.deleteCmd _ key => some (keys.filter (fun k => k ≠ key))
  | _ => some keys

/-- Modelled from the spec: run a command trace against the backend key-set,
optionally injecting a backend failure before the command at `failIdx`.
An error carries the key-set reached at the failure point, so partial-failure
states can be inspected. -/
def runCalls : List String → Option Nat → List S3Call → Except (List String) (List String)
  | keys, _, [] => Except.ok keys
  | keys, failIdx, c :: cs =>
    if failIdx = some 0 then Except.error keys
    else
      match execCall keys c with
      | some keys2 => runCalls keys2 (failIdx.map (fun n => n - 1)) cs
      | none => Except.error keys

/-- Session TTL from part_008 line 78: one hour in milliseconds. -/
def SESSION_TTL : Nat := 60 * 60 * 1000

/-- The in-memory session table of part_008: token mapped to absolute expiry
timestamp in milliseconds. -/
structure SessionStore where
  sessions : List (String × Nat)
deriving DecidableEq

/-- Embedding of the opportunistic cleanup loop inside `createSession`
(part_008 lines 90-97): drop every entry whose expiry is strictly before now. -/
def sweepSessions (st : SessionStore) (now : Nat) : SessionStore :=
  ⟨st.sessions.filter (fun p => !(decide (p.2 < now)))⟩

/-- Embedding of `createSession` (part_008 lines 84-100) with the freshly
generated random token passed in and the probabilistic sweep decision
(`Math.random() < 0.1`) made explicit as `doSweep`. The entry is stored
first; the sweep, when it runs, happens afterwards at the same clock value. -/
def createSession (st : SessionStore) (token : String) (now : Nat) (doSweep : Bool) :
    SessionStore :=
  let st2 : SessionStore := ⟨mapSet st.sessions token (now + SESSION_TTL)⟩
  if doSweep then sweepSessions st2 now else st2

/-- Embedding of `validateToken` (part_008 lines 102-112): unknown tokens are
rejected; a stored expiry strictly before now deletes the entry and rejects;
otherwise the token is accepted. Returns the verdict and the updated table. -/
def validateToken (st : SessionStore) (token : String) (now : Nat) : Bool × SessionStore :=
  match mapGet st.sessions token with
  | none => (false, st)
  | some expiry =>
    if expiry < now then (false, ⟨st.sessions.filter (fun p => !(decide (p.1 = token)))⟩)
    else (true, st)

/-- Verdict component of `validateToken`. -/
def validateTokenB (st : SessionStore) (token : String) (now : Nat) : Bool :=
  (validateToken st token now).1

/-- The request fields the limiter consults: HTTP method, URL path, and the
client identity the counters are keyed by. -/
structure RequestInfo where
  method : String
  path : String
  clientKey : String
deriving DecidableEq

/-- Embedding of the regular-expression test on part_008 line 39:
`req.path.match` against the pattern "slash, one or more non-slash
characters, slash, anything". Anchored only at the start, the pattern
matches exactly the paths that begin with a slash, whose second character is
not a slash, and that contain a further slash later on. -/
def pathMatchesProxyShape (path : String) : Bool :=
  match path.toList with
  | '/' :: c :: rest => decide (c ≠ '/') && rest.contains '/'
  | _ => false

/-- Embedding of the `skip` predicate of `createLimiter` (part_008 lines
37-40): bypass the limiter for every GET request whose path matches the
proxy-route shape. -/
def limiterSkip (req : RequestInfo) : Bool :=
  pathMatchesProxyShape req.path && req.method == "GET"

/-- Outcome of one limiter check: allowed (recording whether the skip
predicate bypassed counting) or rejected with the reset timestamp offered to
the client for retry. -/
inductive Decision where
  | allowed (skipped : Bool)
  | rejected (resetTime : Nat)
deriving DecidableEq

/-- Window duration and quota of one limiter instance, as passed to
`createLimiter` in part_008. -/
structure LimiterConfig where
  windowMs : Nat
  maxRequests : Nat
deriving DecidableEq

/-- Modelled from the spec (section 4.2): an abstract backing counter store
(the shared Redis store or the local table) exposing its one primitive,
an atomic increment of a client's counter within a window, returning the new
count. -/
structure CounterStore (σ : Type) where
  incrInWindow : σ → String → Nat → Nat × σ

/-- Modelled from the spec (section 4.2): one fixed-window limiter check, as
performed by the limiter the factory builds. The skip predicate (embedded
from part_008) is evaluated first and bypasses the counter store entirely;
otherwise the counter for (client, window index = now / windowMs) is
incremented and compared against the quota, rejecting with the start of the
next window as reset time. -/
def limiterStepGeneric {σ : Type} (lc : LimiterConfig) (cs : CounterStore σ) (st : σ)
    (req : RequestInfo) (now : Nat) : Decision × σ :=
  if limiterSkip req then (Decision.allowed true, st)
  else
    let w := now / lc.windowMs
    let r := cs.incrInWindow st req.clientKey w
    if lc.maxRequests < r.1 then (Decision.rejected ((w + 1) * lc.windowMs), r.2)
    else (Decision.allowed false, r.2)

/-- The local in-memory counter table: client key mapped to the window index
last seen and the count within that window. -/
abbrev LocalStore := List (String × (Nat × Nat))

/-- Count recorded for a client in a given window (zero when the stored entry
is for another window or absent). -/
def storeCount (st : LocalStore) (key : String) (w : Nat) : Nat :=
  match mapGet st key with
  | some wc => if wc.1 = w then wc.2 else 0
  | none => 0

/-- Modelled from the spec (section 4.2): the local store's increment
primitive, resetting the count when the window has rolled over. -/
def localIncr (st : LocalStore) (key : String) (w : Nat) : Nat × LocalStore :=
  (storeCount st key w + 1, mapSet st key (w, storeCount st key w + 1))

/-- The local counter store packaged for the generic limiter step. -/
def localCounterStore : CounterStore LocalStore :=
  ⟨localIncr⟩

/-- One limiter check against the local in-memory store. -/
def limiterStep (lc : LimiterConfig) (st : LocalStore) (req : RequestInfo) (now : Nat) :
    Decision × LocalStore :=
  limiterStepGeneric lc localCounterStore st req now

/-- Run a sequence of timestamped requests through one local-store limiter,
threading the store and collecting the decisions. -/
def runSeq (lc : LimiterConfig) : LocalStore → List (RequestInfo × Nat) →
    List Decision × LocalStore
  | st, [] => ([], st)
  | st, (r, t) :: rest =>
    let d := limiterStep lc st r t
    let tail := runSeq lc d.2 rest
    (d.1 :: tail.1, tail.2)

/-- The auth limiter built by `setupRateLimiters` (part_008 line 61):
window and quota come from configuration. -/
def authLimiterConfig (rateLimitWindowMs rateLimitMaxRequests : Nat) : LimiterConfig :=
  ⟨rateLimitWindowMs, rateLimitMaxRequests⟩

/-- The general API limiter built by `setupRateLimiters` (part_008 line 63):
100 requests per 60 seconds. -/
def apiLimiterConfig : LimiterConfig :=
  ⟨60 * 1000, 100⟩

/-- The example aliased configuration of the spec's section 8: real bucket
identifiers `raw-id-1`, `raw-id-2` with aliases `docs`, `media`. -/
def cfgDocs : Config :=
  { bucketNames := ["raw-id-1", "raw-id-2"]
    friendlyBucketNames := some ["docs", "media"]
    bucketNameMap := [("docs", "raw-id-1"), ("media", "raw-id-2")]
    actualBucketMap := [("raw-id-1", "docs"), ("raw-id-2", "media")] }

/-- A configuration in which the string `raw-a` is both the alias configured
for bucket `raw-b` and the real identifier of another bucket. -/
def cfgCollide : Config :=
  { bucketNames := ["raw-b", "raw-a"]
    friendlyBucketNames := some ["raw-a", "alias-2"]
    bucketNameMap := [("raw-a", "raw-b"), ("alias-2", "raw-a")]
    actualBucketMap := [("raw-b", "raw-a"), ("raw-a", "alias-2")] }

/-- A login request: its path fits the two-segment shape but its method is
POST, so no limiter skips it. -/
def reqLogin : RequestInfo :=
  ⟨"POST", "/api/auth/login", "9.9.9.9"⟩

/-- A public read-proxy request for `report.pdf` in the aliased bucket. -/
def reqProxy : RequestInfo :=
  ⟨"GET", "/docs/report.pdf", "1.2.3.4"⟩

/-- A list-files API request, `GET /api/buckets/docs/files`. -/
def reqListFiles : RequestInfo :=
  ⟨"GET", "/api/buckets/docs/files", "203.0.113.7"⟩

/-- Lookup after an update: the updated key reads the new value, every other
key is unaffected. -/
theorem mapGet_mapSet {α : Type} (m : List (String × α)) (k s : String) (v : α) :
    mapGet (mapSet m k v) s = if s = k then some v else mapGet m s := by
  induction m with
  | nil =>
    by_cases h : s = k
    · subst h; simp [mapSet, mapGet]
    · simp [mapSet, mapGet, h, Ne.symm h]
  | cons p ps ih =>
    by_cases hpk : p.1 = k
    · by_cases hsk : s = k
      · subst hsk; simp [mapSet, mapGet, hpk]
      · have hks : ¬ k = s := fun h => hsk h.symm
        simp [mapSet, mapGet, hpk, hsk, hks]
    · by_cases hps : p.1 = s
      · have hsk : ¬ s = k := fun h => hpk (h ▸ hps)
        simp [mapSet, mapGet, hpk, hps, hsk]
      · simp [mapSet, mapGet, hpk, hps, ih]

/-- Folding `mapSet` over pairs none of whose keys is `s` leaves the lookup
of `s` unchanged. -/
theorem mapGet_foldl_of_not_mem {α : Type} (pairs : List (String × α)) (m : List (String × α))
    (s : String) (h : ∀ p ∈ pairs, p.1 ≠ s) :
    mapGet (pairs.foldl (fun acc p => mapSet acc p.1 p.2) m) s = mapGet m s := by
  induction pairs generalizing m with
  | nil => rfl
  | cons p ps ih =>
    rw [List.foldl_cons, ih (mapSet m p.1 p.2) (fun q hq => h q (List.mem_cons_of_mem _ hq)),
        mapGet_mapSet, if_neg (fun hs => h p (List.mem_cons_self _ _) hs.symm)]

/-- Folding `mapSet` over pairs with pairwise-distinct keys makes each pair's
key read its paired value. -/
theorem mapGet_foldl_of_mem {α : Type} (pairs : List (String × α)) (m : List (String × α))
    (k : String) (v : α) (hnd : (pairs.map Prod.fst).Nodup) (hmem : (k, v) ∈ pairs) :
    mapGet (pairs.foldl (fun acc p => mapSet acc p.1 p.2) m) k = some v := by
  induction pairs generalizing m with
  | nil => cases hmem
  | cons p ps ih =>
    rw [List.map_cons, List.nodup_cons] at hnd
    rw [List.foldl_cons]
    rcases List.mem_cons.mp hmem with hq | hq
    · have hq2 : p = (k, v) := hq.symm
      subst hq2
      rw [mapGet_foldl_of_not_mem ps _ k
            (fun q hqm hqk => hnd.1 (by rw [← hqk]; exact List.mem_map.mpr ⟨q, hqm, rfl⟩)),
          mapGet_mapSet, if_pos rfl]
    · exact ih (mapSet m p.1 p.2) hnd.2 hq

/-- Every entry of a map built by repeated `mapSet` comes from the original
map or from one of the pairs set into it. -/
theorem mem_mapSet {α : Type} (m : List (String × α)) (k : String) (v : α) (q : String × α)
    (h : q ∈ mapSet m k v) : q ∈ m ∨ q = (k, v) := by
  induction m with
  | nil => simp only [mapSet, List.mem_singleton] at h; exact Or.inr h
  | cons p ps ih =>
    by_cases hpk : p.1 = k
    · simp only [mapSet, if_pos hpk, List.mem_cons] at h
      rcases h with h | h
      · exact Or.inr h
      · exact Or.inl (List.mem_cons_of_mem _ h)
    · simp only [mapSet, if_neg hpk, List.mem_cons] at h
      rcases h with h | h
      · exact Or.inl (h ▸ List.mem_cons_self _ _)
      · rcases ih h with h2 | h2
        · exact Or.inl (List.mem_cons_of_mem _ h2)
        · exact Or.inr h2

/-- Entries of a fold of `mapSet` come from the accumulator or the pairs. -/
theorem mem_foldl_mapSet {α : Type} (pairs : List (String × α)) (m : List (String × α))
    (q : String × α) (h : q ∈ pairs.foldl (fun acc p => mapSet acc p.1 p.2) m) :
    q ∈ m ∨ q ∈ pairs := by
  induction pairs generalizing m with
  | nil => exact Or.inl h
  | cons p ps ih =>
    rw [List.foldl_cons] at h
    rcases ih (mapSet m p.1 p.2) h with h2 | h2
    · rcases mem_mapSet m p.1 p.2 q h2 with h3 | h3
      · exact Or.inl h3
      · exact Or.inr (h3 ▸ List.mem_cons_self _ _)
    · exact Or.inr (List.mem_cons_of_mem _ h2)

/-- Entries of `buildMap pairs` are among `pairs`. -/
theorem mem_buildMap {α : Type} (pairs : List (String × α)) (q : String × α)
    (h : q ∈ buildMap pairs) : q ∈ pairs := by
  rcases mem_foldl_mapSet pairs [] q h with h2 | h2
  · cases h2
  · exact h2

/-- A successful lookup exhibits an entry of the map. -/
theorem mapGet_mem {α : Type} (m : List (String × α)) (s : String) (v : α)
    (h : mapGet m s = some v) : (s, v) ∈ m := by
  induction m with
  | nil => cases h
  | cons p ps ih =>
    by_cases hp : p.1 = s
    · rw [mapGet, if_pos hp] at h
      have hv : p.2 = v := Option.some.inj h
      have : p = (s, v) := by
        calc p = (p.1, p.2) := rfl
        _ = (s, v) := by rw [hp, hv]
      exact this ▸ List.mem_cons_self _ _
    · rw [mapGet, if_neg hp] at h
      exact List.mem_cons_of_mem _ (ih h)

/-- Paired elements at a shared index belong to the zip of two lists. -/
theorem get_mem_zip {α β : Type} (l1 : List α) (l2 : List β) (i : Nat)
    (h1 : i < l1.length) (h2 : i < l2.length) :
    (l1.get ⟨i, h1⟩, l2.get ⟨i, h2⟩) ∈ l1.zip l2 := by
  have hz : i < (l1.zip l2).length := by
    rw [List.length_zip]; exact lt_min h1 h2
  have hg := @List.getElem_zip _ _ l1 l2 i hz
  have hm := List.getElem_mem hz
  rw [hg] at hm
  simpa [List.get_eq_getElem] using hm

/-- Members of the zip of a list with itself are diagonal pairs. -/
theorem zip_self_diag {α : Type} (l : List α) (q : α × α) (h : q ∈ l.zip l) : q.1 = q.2 := by
  induction l with
  | nil => cases h
  | cons a as ih =>
    rw [List.zip_cons_cons] at h
    rcases List.mem_cons.mp h with h2 | h2
    · rw [h2]
    · exact ih h2

/-- Shape of every configuration `validateEnv` accepts: the bucket list is
kept as given, and the maps are either the pairwise alias maps (non-empty
friendly list of matching length) or the identity maps (no friendly names). -/
theorem validateEnv_ok_cases (bn fn : List String) (cfg : Config)
    (h : validateEnv bn fn = Except.ok cfg) :
    cfg.bucketNames = bn ∧
    ((cfg.friendlyBucketNames = some (filterFriendly fn) ∧
      (filterFriendly fn).length = bn.length ∧
      0 < (filterFriendly fn).length ∧
      cfg.bucketNameMap = buildMap ((filterFriendly fn).zip bn) ∧
      cfg.actualBucketMap = buildMap (bn.zip (filterFriendly fn))) ∨
     (cfg.friendlyBucketNames = none ∧
      filterFriendly fn = [] ∧
      cfg.bucketNameMap = buildMap (bn.zip bn) ∧
      cfg.actualBucketMap = buildMap (bn.zip bn))) := by
  unfold validateEnv at h
  split at h
  · cases h
  · split at h
    · cases h
    · rename_i hzero hmm
      split at h
      · rename_i hpos
        have hcfg := Except.ok.inj h
        have hlen : (filterFriendly fn).length = bn.length := by
          by_contra hne
          exact hmm ⟨hpos, hne⟩
        subst hcfg
        exact ⟨rfl, Or.inl ⟨rfl, hlen, hpos, rfl, rfl⟩⟩
      · rename_i hnpos
        have hcfg := Except.ok.inj h
        have hempty : filterFriendly fn = [] := by
          cases hf : filterFriendly fn with
          | nil => rfl
          | cons a l => exact absurd (by rw [hf]; simp) hnpos
        subst hcfg
        exact ⟨rfl, Or.inr ⟨rfl, hempty, rfl, rfl⟩⟩

/-- Every element surviving the friendly-name filter is non-empty. -/
theorem filterFriendly_pos (fn : List String) (b : String) (hb : b ∈ filterFriendly fn) :
    0 < b.length := by
  have := List.mem_filter.mp hb
  exact of_decide_eq_true this.2

/-- C1: for every configured bucket/alias pair of a well-formed registry
(distinct non-empty real identifiers, distinct aliases, no alias reusing a
real identifier), `resolveBucketName` maps both the alias and the real
identifier to the real identifier, and `getFriendlyBucketName` maps the real
identifier to its alias; with no alias list configured,
`getFriendlyBucketName` is the identity on every input string and never
fails. -/
theorem resolve_display_roundtrip (bn fn : List String) (cfg : Config)
    (h : validateEnv bn fn = Except.ok cfg)
    (hndb : bn.Nodup)
    (hposb : ∀ b ∈ bn, 0 < b.length) :
    (∀ fnl, cfg.friendlyBucketNames = some fnl →
      fnl.Nodup → (∀ a ∈ fnl, a ∉ bn) →
      ∀ i, (hif : i < fnl.length) → (hib : i < bn.length) →
        resolveBucketName cfg (fnl.get ⟨i, hif⟩) = some (bn.get ⟨i, hib⟩) ∧
        resolveBucketName cfg (bn.get ⟨i, hib⟩) = some (bn.get ⟨i, hib⟩) ∧
        getFriendlyBucketName cfg (bn.get ⟨i, hib⟩) = fnl.get ⟨i, hif⟩) ∧
    (cfg.friendlyBucketNames = none → ∀ s, getFriendlyBucketName cfg s = s) := by
  obtain ⟨hbn, hcase⟩ := validateEnv_ok_cases bn fn cfg h
  constructor
  · intro fnl hfnl hnda hdisj i hif hib
    rcases hcase with ⟨hsome, hlen, _, hbm, ham⟩ | ⟨hnone, _, _, _⟩
    · rw [hfnl] at hsome
      have hfe : fnl = filterFriendly fn := Option.some.inj hsome
      rw [← hfe] at hlen hbm ham
      refine ⟨?_, ?_, ?_⟩
      · have hnotin : ¬ fnl.get ⟨i, hif⟩ ∈ cfg.bucketNames := by
          rw [hbn]; exact hdisj _ (List.get_mem fnl i hif)
        have hmg : mapGet cfg.bucketNameMap (fnl.get ⟨i, hif⟩) = some (bn.get ⟨i, hib⟩) := by
          rw [hbm]
          exact mapGet_foldl_of_mem (fnl.zip bn) [] _ _
            (by rw [List.map_fst_zip fnl bn (le_of_eq hlen)]; exact hnda)
            (get_mem_zip fnl bn i hif hib)
        rw [resolveBucketName, if_neg hnotin, hmg]
        show (if 0 < (bn.get ⟨i, hib⟩).length then some (bn.get ⟨i, hib⟩) else none) =
          some (bn.get ⟨i, hib⟩)
        rw [if_pos (hposb _ (List.get_mem bn i hib))]
      · have hin : bn.get ⟨i, hib⟩ ∈ cfg.bucketNames := by
          rw [hbn]; exact List.get_mem bn i hib
        rw [resolveBucketName, if_pos hin]
      · have hmg : mapGet cfg.actualBucketMap (bn.get ⟨i, hib⟩) = some (fnl.get ⟨i, hif⟩) := by
          rw [ham]
          exact mapGet_foldl_of_mem (bn.zip fnl) [] _ _
            (by rw [List.map_fst_zip bn fnl (le_of_eq hlen.symm)]; exact hndb)
            (get_mem_zip bn fnl i hib hif)
        rw [getFriendlyBucketName, hmg]
        show (if 0 < (fnl.get ⟨i, hif⟩).length then fnl.get ⟨i, hif⟩ else bn.get ⟨i, hib⟩) =
          fnl.get ⟨i, hif⟩
        rw [if_pos (filterFriendly_pos fn _ (by rw [← hfe]; exact List.get_mem fnl i hif))]
    · rw [hfnl] at hnone; cases hnone
  · intro hnone s
    rcases hcase with ⟨hsome, _, _, _, _⟩ | ⟨_, _, _, ham⟩
    · rw [hnone] at hsome; cases hsome
    · rw [getFriendlyBucketName]
      cases hg : mapGet cfg.actualBucketMap s with
      | none => rfl
      | some v =>
        have hd : s = v := by
          have hm := mapGet_mem cfg.actualBucketMap s v hg
          rw [ham] at hm
          exact zip_self_diag bn (s, v) (mem_buildMap _ _ hm)
        subst hd
        show (if 0 < s.length then s else s) = s
        split <;> rfl

/-- Witness for C1 on the spec's example registry: alias `docs` for real
identifier `raw-id-1`. -/
theorem resolve_display_roundtrip_witness :
    resolveBucketName cfgDocs "docs" = some "raw-id-1" ∧
    resolveBucketName cfgDocs "raw-id-1" = some "raw-id-1" ∧
    getFriendlyBucketName cfgDocs "raw-id-1" = "docs" := by
  have h := (resolve_display_roundtrip ["raw-id-1", "raw-id-2"] ["docs", "media"] cfgDocs
    (by rfl) (by decide) (by decide)).1 ["docs", "media"] rfl (by decide) (by decide)
    0 (by decide) (by decide)
  exact h

/-- C2: every string that is neither a configured real identifier nor a
configured alias resolves to nothing and fails validation, and validation
succeeds exactly when resolution does. -/
theorem notfound_and_isvalid (bn fn : List String) (cfg : Config)
    (h : validateEnv bn fn = Except.ok cfg) :
    (∀ s, s ∉ bn → s ∉ filterFriendly fn →
      resolveBucketName cfg s = none ∧ validateBucket cfg s = false) ∧
    (∀ s, validateBucket cfg s = true ↔ (resolveBucketName cfg s).isSome = true) := by
  obtain ⟨hbn, hcase⟩ := validateEnv_ok_cases bn fn cfg h
  constructor
  · intro s hnotb hnotf
    have hnotin : ¬ s ∈ cfg.bucketNames := by rw [hbn]; exact hnotb
    have hmg : mapGet cfg.bucketNameMap s = none := by
      rcases hcase with ⟨_, _, _, hbm, _⟩ | ⟨_, _, hbm, _⟩
      · rw [hbm, buildMap, mapGet_foldl_of_not_mem]
        · rfl
        · rintro ⟨a, b⟩ hab rfl
          exact hnotf (List.of_mem_zip hab).1
      · rw [hbm, buildMap, mapGet_foldl_of_not_mem]
        · rfl
        · rintro ⟨a, b⟩ hab rfl
          exact hnotb (List.of_mem_zip hab).1
    have hres : resolveBucketName cfg s = none := by
      rw [resolveBucketName, if_neg hnotin, hmg]
    exact ⟨hres, by rw [validateBucket, hres]; rfl⟩
  · intro s
    exact Iff.rfl

/-- Witness for C2: an unconfigured name is rejected on the example
registry. -/
theorem notfound_and_isvalid_witness :
    resolveBucketName cfgDocs "nope" = none ∧ validateBucket cfgDocs "nope" = false := by
  exact (notfound_and_isvalid ["raw-id-1", "raw-id-2"] ["docs", "media"] cfgDocs
    (by rfl)).1 "nope" (by decide) (by decide)

/-- C5 counterexample: configuration loading accepts a duplicated real
identifier and a duplicated alias without failing, so the duplicate cases of
the claim are false. -/
theorem startup_duplicates_accepted :
    exceptIsOk (validateEnv ["raw-a", "raw-a"] []) = true ∧
    exceptIsOk (validateEnv ["raw-a", "raw-b"] ["docs", "docs"]) = true := by
  exact ⟨rfl, rfl⟩

/-- C5 amended: configuration loading fails when the filtered friendly-name
list is non-empty with a count differing from the bucket count (and when the
bucket list is empty); in every other case, including duplicate real
identifiers and duplicate aliases, it succeeds. -/
theorem startup_count_mismatch_fatal (bn fn : List String) :
    (bn ≠ [] → filterFriendly fn ≠ [] → (filterFriendly fn).length ≠ bn.length →
      validateEnv bn fn =
        Except.error "FRIENDLY_BUCKET_NAMES count must match BUCKET_NAMES count") ∧
    (bn ≠ [] → (filterFriendly fn = [] ∨ (filterFriendly fn).length = bn.length) →
      exceptIsOk (validateEnv bn fn) = true) := by
  constructor
  · intro hb hf hne
    rw [validateEnv, if_neg (fun hz => hb (List.length_eq_zero.mp hz)),
        if_pos ⟨List.length_pos.mpr hf, hne⟩]
  · intro hb hor
    rw [validateEnv, if_neg (fun hz => hb (List.length_eq_zero.mp hz))]
    rcases hor with hf | hlen
    · have hz : ¬ 0 < (filterFriendly fn).length := by
        rw [hf]; exact lt_irrefl 0
      rw [if_neg (fun hc => hz hc.1), if_neg hz]
      rfl
    · rw [if_neg (fun hc => hc.2 hlen)]
      by_cases hp : 0 < (filterFriendly fn).length
      · rw [if_pos hp]; rfl
      · rw [if_neg hp]; rfl

/-- Witness for the amended C5: a one-bucket list with a two-alias list is
rejected at startup. -/
theorem startup_count_mismatch_fatal_witness :
    validateEnv ["raw-a"] ["docs", "media"] =
      Except.error "FRIENDLY_BUCKET_NAMES count must match BUCKET_NAMES count" :=
  (startup_count_mismatch_fatal ["raw-a"] ["docs", "media"]).1
    (by decide) (by decide) (by decide)

/-- C10: real identifiers take precedence over aliases in resolution, and a
configuration in which one string is both an alias for one bucket and the
real identifier of another is accepted by configuration loading. -/
theorem real_identifier_precedence :
    (∀ bn fn cfg s, validateEnv bn fn = Except.ok cfg → s ∈ cfg.bucketNames →
       resolveBucketName cfg s = some s) ∧
    (validateEnv ["raw-b", "raw-a"] ["raw-a", "alias-2"] = Except.ok cfgCollide ∧
     mapGet cfgCollide.bucketNameMap "raw-a" = some "raw-b" ∧
     resolveBucketName cfgCollide "raw-a" = some "raw-a") := by
  constructor
  · intro bn fn cfg s h hs
    rw [resolveBucketName, if_pos hs]
  · exact ⟨rfl, rfl, rfl⟩

/-- Witness for C10: in the colliding registry, `raw-a` (alias of `raw-b`
and real identifier of another bucket) resolves to itself. -/
theorem real_identifier_precedence_witness :
    resolveBucketName cfgCollide "raw-a" = some "raw-a" :=
  real_identifier_precedence.1 ["raw-b", "raw-a"] ["raw-a", "alias-2"] cfgCollide "raw-a"
    rfl (by decide)

/-- C6 counterexample: a token created at time 0 with the one-hour TTL is
still accepted at exactly time TTL, because `validateToken` only rejects
when the stored expiry is strictly below the clock; the claim requires it to
be invalid at every time at or after creation plus TTL. -/
theorem session_valid_at_exact_expiry :
    validateTokenB (createSession ⟨[]⟩ "tok" 0 false) "tok" (0 + SESSION_TTL) = true := by
  rfl

/-- C6 amended: a token created at time `now` with no sweep run is accepted
at every lookup time up to and including `now + SESSION_TTL`, and rejected
at every strictly later time. -/
theorem session_token_validity (st : SessionStore) (token : String) (now t : Nat)
    (_hle : now ≤ t) :
    (validateTokenB (createSession st token now false) token t = true ↔
      t ≤ now + SESSION_TTL) := by
  have hmg : mapGet (createSession st token now false).sessions token
      = some (now + SESSION_TTL) := by
    show mapGet (mapSet st.sessions token (now + SESSION_TTL)) token = _
    rw [mapGet_mapSet, if_pos rfl]
  by_cases hlt : now + SESSION_TTL < t
  · simp only [validateTokenB, validateToken, hmg, if_pos hlt]
    constructor
    · intro hfalse; cases hfalse
    · intro hc; omega
  · simp only [validateTokenB, validateToken, hmg, if_neg hlt]
    constructor
    · intro _; omega
    · intro _; trivial

/-- Witness for the amended C6 at creation time itself. -/
theorem session_token_validity_witness :
    (validateTokenB (createSession ⟨[]⟩ "tok" 0 false) "tok" 0 = true ↔
      (0 : Nat) ≤ 0 + SESSION_TTL) :=
  session_token_validity ⟨[]⟩ "tok" 0 0 (Nat.le_refl 0)

/-- C7: every gateway operation resolves the caller-supplied bucket name
first; when resolution fails the operation fails with `Invalid bucket` and
issues no backend command, and when it succeeds every backend command is
addressed to the resolved real identifier. -/
theorem gateway_resolves_first (cfg : Config)
    (b key sourceKey targetKey pfx : String) (tok contentType : Option String) :
    (resolveBucketName cfg b = none →
      getObject cfg b key = Except.error "Invalid bucket" ∧
      listObjects cfg b pfx tok = Except.error "Invalid bucket" ∧
      uploadFile cfg b key contentType = Except.error "Invalid bucket" ∧
      deleteFile cfg b key = Except.error "Invalid bucket" ∧
      moveFile cfg b sourceKey targetKey = Except.error "Invalid bucket" ∧
      copyFile cfg b sourceKey targetKey = Except.error "Invalid bucket") ∧
    (∀ a, getActualBucketName cfg b = Except.ok a →
      resolveBucketName cfg b = some a ∧
      getObject cfg b key = Except.ok [S3Call.getCmd a key] ∧
      listObjects cfg b pfx tok = Except.ok [S3Call.listCmd a pfx tok 1000 "/"] ∧
      uploadFile cfg b key contentType = Except.ok [S3Call.putCmd a key contentType] ∧
      deleteFile cfg b key = Except.ok [S3Call.deleteCmd a key] ∧
      moveFile cfg b sourceKey targetKey =
        Except.ok [S3Call.copyCmd a sourceKey targetKey, S3Call.deleteCmd a sourceKey] ∧
      copyFile cfg b sourceKey targetKey = Except.ok [S3Call.copyCmd a sourceKey targetKey]) := by
  constructor
  · intro hres
    have hga : getActualBucketName cfg b = Except.error "Invalid bucket" := by
      rw [getActualBucketName, hres]
    exact ⟨by rw [getObject, hga], by rw [listObjects, hga], by rw [uploadFile, hga],
           by rw [deleteFile, hga], by rw [moveFile, hga], by rw [copyFile, hga]⟩
  · intro a ha
    have hres : resolveBucketName cfg b = some a := by
      rw [getActualBucketName] at ha
      cases hr : resolveBucketName cfg b with
      | none => rw [hr] at ha; cases ha
      | some x =>
        rw [hr] at ha
        have ha2 : (if 0 < x.length then Except.ok x
            else (Except.error "Invalid bucket" : Except String String)) = Except.ok a := ha
        by_cases hx : 0 < x.length
        · rw [if_pos hx] at ha2
          exact congrArg some (Except.ok.inj ha2)
        · rw [if_neg hx] at ha2; cases ha2
    exact ⟨hres, by rw [getObject, ha], by rw [listObjects, ha], by rw [uploadFile, ha],
           by rw [deleteFile, ha], by rw [moveFile, ha], by rw [copyFile, ha]⟩

/-- Witness for C7 on the example registry: the alias issues a command
against the real identifier, and an unknown name issues none. -/
theorem gateway_resolves_first_witness :
    getObject cfgDocs "docs" "report.pdf" = Except.ok [S3Call.getCmd "raw-id-1" "report.pdf"] ∧
    getObject cfgDocs "nope" "report.pdf" = Except.error "Invalid bucket" :=
  ⟨((gateway_resolves_first cfgDocs "docs" "report.pdf" "s" "t" "" none none).2
      "raw-id-1" rfl).2.1,
   ((gateway_resolves_first cfgDocs "nope" "report.pdf" "s" "t" "" none none).1 rfl).1⟩

/-- C8: `moveFile` issues exactly the copy command followed by the delete
command; when both succeed the target key exists and the source key is gone,
and when the backend fails at the delete (after the copy succeeded) the
operation fails with both the target and the source key present, no cleanup
command having been issued. -/
theorem move_copy_then_delete (cfg : Config) (b a sourceKey targetKey : String)
    (ha : getActualBucketName cfg b = Except.ok a)
    (keys : List String) (hsrc : sourceKey ∈ keys) (hne : sourceKey ≠ targetKey) :
    moveFile cfg b sourceKey targetKey =
      Except.ok [S3Call.copyCmd a sourceKey targetKey, S3Call.deleteCmd a sourceKey] ∧
    (∃ keys2,
      runCalls keys none [S3Call.copyCmd a sourceKey targetKey, S3Call.deleteCmd a sourceKey]
        = Except.ok keys2 ∧ targetKey ∈ keys2 ∧ sourceKey ∉ keys2) ∧
    (∃ keys3,
      runCalls keys (some 1) [S3Call.copyCmd a sourceKey targetKey, S3Call.deleteCmd a sourceKey]
        = Except.error keys3 ∧ targetKey ∈ keys3 ∧ sourceKey ∈ keys3) := by
  have hkeys1 : ∃ keys1, execCall keys (S3Call.copyCmd a sourceKey targetKey) = some keys1 ∧
      targetKey ∈ keys1 ∧ sourceKey ∈ keys1 := by
    by_cases ht : targetKey ∈ keys
    · exact ⟨keys, by simp [execCall, hsrc, ht], ht, hsrc⟩
    · exact ⟨keys ++ [targetKey], by simp [execCall, hsrc, ht],
        List.mem_append.mpr (Or.inr (List.mem_singleton.mpr rfl)),
        List.mem_append.mpr (Or.inl hsrc)⟩
  obtain ⟨keys1, hexec, htk, hsk⟩ := hkeys1
  refine ⟨by rw [moveFile, ha], ?_, ?_⟩
  · refine ⟨keys1.filter (fun k => k ≠ sourceKey), ?_, ?_, ?_⟩
    · rw [runCalls, if_neg (by simp), hexec]
      show runCalls keys1 none [S3Call.deleteCmd a sourceKey] = _
      rw [runCalls, if_neg (by simp)]
      show runCalls (keys1.filter (fun k => k ≠ sourceKey)) none [] = _
      rfl
    · rw [List.mem_filter]
      exact ⟨htk, by simp [Ne.symm hne]⟩
    · intro hmem
      have hcond := (List.mem_filter.mp hmem).2
      simp at hcond
  · refine ⟨keys1, ?_, htk, hsk⟩
    rw [runCalls, if_neg (by simp), hexec]
    show runCalls keys1 (some 0) [S3Call.deleteCmd a sourceKey] = _
    rw [runCalls, if_pos rfl]

/-- Witness for C8: moving `report.pdf` to `archive.pdf` in the example
registry. -/
theorem move_copy_then_delete_witness :
    moveFile cfgDocs "docs" "report.pdf" "archive.pdf" =
      Except.ok [S3Call.copyCmd "raw-id-1" "report.pdf" "archive.pdf",
                 S3Call.deleteCmd "raw-id-1" "report.pdf"] :=
  (move_copy_then_delete cfgDocs "docs" "raw-id-1" "report.pdf" "archive.pdf" rfl
    ["report.pdf"] (by decide) (by decide)).1

/-- Count read back after a store update for the same client. -/
theorem storeCount_mapSet (st : LocalStore) (key : String) (wv : Nat × Nat) (w2 : Nat) :
    storeCount (mapSet st key wv) key w2 = if wv.1 = w2 then wv.2 else 0 := by
  rw [storeCount, mapGet_mapSet, if_pos rfl]

/-- A non-skipped request under quota is allowed and bumps the client's
counter in the current window. -/
theorem limiterStep_allowed (lc : LimiterConfig) (st : LocalStore) (req : RequestInfo)
    (t : Nat) (hs : limiterSkip req = false)
    (hc : storeCount st req.clientKey (t / lc.windowMs) + 1 ≤ lc.maxRequests) :
    limiterStep lc st req t = (Decision.allowed false,
      mapSet st req.clientKey
        (t / lc.windowMs, storeCount st req.clientKey (t / lc.windowMs) + 1)) := by
  rw [limiterStep, limiterStepGeneric, if_neg (by simp [hs])]
  show (if lc.maxRequests < storeCount st req.clientKey (t / lc.windowMs) + 1
        then _ else _) = _
  rw [if_neg (not_lt.mpr hc)]
  rfl

/-- A non-skipped request over quota is rejected with the start of the next
window as reset time; the counter is still bumped. -/
theorem limiterStep_rejected (lc : LimiterConfig) (st : LocalStore) (req : RequestInfo)
    (t : Nat) (hs : limiterSkip req = false)
    (hc : lc.maxRequests < storeCount st req.clientKey (t / lc.windowMs) + 1) :
    limiterStep lc st req t = (Decision.rejected ((t / lc.windowMs + 1) * lc.windowMs),
      mapSet st req.clientKey
        (t / lc.windowMs, storeCount st req.clientKey (t / lc.windowMs) + 1)) := by
  rw [limiterStep, limiterStepGeneric, if_neg (by simp [hs])]
  show (if lc.maxRequests < storeCount st req.clientKey (t / lc.windowMs) + 1
        then _ else _) = _
  rw [if_pos hc]
  rfl

/-- Running a same-window burst that stays within quota: every request is
allowed and the counter ends at the burst length plus the starting count. -/
theorem runSeq_under_quota (lc : LimiterConfig) (req : RequestInfo)
    (hs : limiterSkip req = false) (w : Nat) :
    ∀ (ts : List Nat) (st : LocalStore) (c : Nat),
      (∀ t ∈ ts, t / lc.windowMs = w) →
      storeCount st req.clientKey w = c →
      c + ts.length ≤ lc.maxRequests →
      (runSeq lc st (ts.map (fun t => (req, t)))).1 =
        List.replicate ts.length (Decision.allowed false) ∧
      storeCount (runSeq lc st (ts.map (fun t => (req, t)))).2 req.clientKey w =
        c + ts.length := by
  intro ts
  induction ts with
  | nil =>
    intro st c _ hc _
    exact ⟨rfl, by simpa using hc⟩
  | cons t ts ih =>
    intro st c hw hc hq
    have hwt : t / lc.windowMs = w := hw t (List.mem_cons_self _ _)
    have hstep := limiterStep_allowed lc st req t hs
      (by rw [hwt, hc]; simp at hq; omega)
    have hc2 : storeCount
        (mapSet st req.clientKey
          (t / lc.windowMs, storeCount st req.clientKey (t / lc.windowMs) + 1))
        req.clientKey w = c + 1 := by
      rw [storeCount_mapSet]
      show (if t / lc.windowMs = w then storeCount st req.clientKey (t / lc.windowMs) + 1
            else 0) = c + 1
      rw [if_pos hwt, hwt, hc]
    have hih := ih
      (mapSet st req.clientKey
        (t / lc.windowMs, storeCount st req.clientKey (t / lc.windowMs) + 1))
      (c + 1) (fun u hu => hw u (List.mem_cons_of_mem _ hu)) hc2
      (by simp at hq ⊢; omega)
    rw [List.map_cons, runSeq, hstep]
    constructor
    · show Decision.allowed false :: (runSeq lc _ (ts.map (fun u => (req, u)))).1 = _
      rw [List.length_cons, List.replicate_succ, hih.1]
    · show storeCount (runSeq lc _ (ts.map (fun u => (req, u)))).2 req.clientKey w = _
      rw [hih.2, List.length_cons]
      omega

/-- C3: any GET request whose path has the public read-proxy shape (a
non-empty first segment followed by a slash and the rest of the key) is
skipped by a limiter of any window and quota over any backing counter store,
leaving the store untouched, so it is never rejected regardless of volume. -/
theorem proxy_path_never_limited {σ : Type} (cs : CounterStore σ) (st : σ)
    (lc : LimiterConfig) (req : RequestInfo) (now : Nat)
    (hm : req.method = "GET")
    (bucket rest : List Char) (hb : bucket ≠ []) (hnb : ('/' : Char) ∉ bucket)
    (hp : req.path.toList = '/' :: (bucket ++ '/' :: rest)) :
    limiterStepGeneric lc cs st req now = (Decision.allowed true, st) := by
  have hshape : pathMatchesProxyShape req.path = true := by
    cases bucket with
    | nil => exact absurd rfl hb
    | cons c cb =>
      have hcne : c ≠ '/' := fun hcq => hnb (by rw [hcq]; exact List.mem_cons_self _ _)
      have hmem : ('/' : Char) ∈ cb ++ '/' :: rest :=
        List.mem_append.mpr (Or.inr (List.mem_cons_self _ _))
      rw [pathMatchesProxyShape, hp]
      show (decide (c ≠ '/') && (cb ++ '/' :: rest).contains '/') = true
      rw [decide_eq_true hcne]
      simp [hmem]
  have hskip : limiterSkip req = true := by
    rw [limiterSkip, hshape, hm]
    rfl
  rw [limiterStepGeneric, if_pos hskip]

/-- Witness for C3: a proxy GET from a client whose counter is already a
million in the current window is still allowed and leaves the store alone. -/
theorem proxy_path_never_limited_witness :
    limiterStepGeneric apiLimiterConfig localCounterStore
      [("1.2.3.4", (0, 1000000))] reqProxy 0 =
      (Decision.allowed true, [("1.2.3.4", (0, 1000000))]) :=
  proxy_path_never_limited localCounterStore [("1.2.3.4", (0, 1000000))]
    apiLimiterConfig reqProxy 0 rfl
    ['d', 'o', 'c', 's'] ("report.pdf".toList) (by decide) (by decide) (by decide)

/-- C4 evaluation at the failing input: the skip predicate matches
`GET /api/buckets/docs/files`, so the general API limiter bypasses counting
and allows the request even for a client far over quota, contradicting the
claim that this endpoint is counted and over-quota requests rejected. -/
theorem list_endpoint_limiter_skipped :
    limiterSkip reqListFiles = true ∧
    limiterStep apiLimiterConfig [("203.0.113.7", (0, 1000000))] reqListFiles 0 =
      (Decision.allowed true, [("203.0.113.7", (0, 1000000))]) := by
  exact ⟨rfl, rfl⟩

/-- C9: for window W and quota Q, a same-window burst of Q non-skipped
requests from one client starting from an empty store is fully allowed; the
next request in that window is rejected with reset time the start of the
next window, which is at most W in the future; and once the window has
elapsed a further request from the same client is allowed again. -/
theorem fixed_window_quota (W Q : Nat) (hW : 0 < W) (hQ : 0 < Q)
    (req : RequestInfo) (hs : limiterSkip req = false)
    (ts : List Nat) (w : Nat)
    (hts : ∀ t ∈ ts, t / W = w) (hlen : ts.length = Q)
    (tR : Nat) (htR : tR / W = w)
    (t2 : Nat) (ht2 : (w + 1) * W ≤ t2) :
    (runSeq ⟨W, Q⟩ [] (ts.map (fun t => (req, t)))).1 =
      List.replicate Q (Decision.allowed false) ∧
    (limiterStep ⟨W, Q⟩ (runSeq ⟨W, Q⟩ [] (ts.map (fun t => (req, t)))).2 req tR).1 =
      Decision.rejected ((w + 1) * W) ∧
    (w + 1) * W ≤ tR + W ∧
    (limiterStep ⟨W, Q⟩
        (limiterStep ⟨W, Q⟩ (runSeq ⟨W, Q⟩ [] (ts.map (fun t => (req, t)))).2 req tR).2
        req t2).1 = Decision.allowed false := by
  have hrun := runSeq_under_quota ⟨W, Q⟩ req hs w ts [] 0 hts rfl
    (show 0 + ts.length ≤ Q by omega)
  have hcount : storeCount (runSeq ⟨W, Q⟩ [] (ts.map (fun t => (req, t)))).2
      req.clientKey w = Q := by
    rw [hrun.2, hlen]
    omega
  have hrej := limiterStep_rejected ⟨W, Q⟩
    (runSeq ⟨W, Q⟩ [] (ts.map (fun t => (req, t)))).2 req tR hs
    (show Q < storeCount (runSeq ⟨W, Q⟩ [] (ts.map (fun t => (req, t)))).2
        req.clientKey (tR / W) + 1 by rw [htR, hcount]; omega)
  have hwlt : w + 1 ≤ t2 / W := (Nat.le_div_iff_mul_le hW).mpr ht2
  have hsc2 : storeCount
      (limiterStep ⟨W, Q⟩ (runSeq ⟨W, Q⟩ [] (ts.map (fun t => (req, t)))).2 req tR).2
      req.clientKey (t2 / W) = 0 := by
    rw [hrej]
    show storeCount (mapSet _ req.clientKey (tR / W, _)) req.clientKey (t2 / W) = 0
    rw [storeCount_mapSet]
    show (if tR / W = t2 / W then _ else 0) = 0
    rw [if_neg (by rw [htR]; omega)]
  have hall := limiterStep_allowed ⟨W, Q⟩
    (limiterStep ⟨W, Q⟩ (runSeq ⟨W, Q⟩ [] (ts.map (fun t => (req, t)))).2 req tR).2
    req t2 hs
    (show storeCount
        (limiterStep ⟨W, Q⟩ (runSeq ⟨W, Q⟩ [] (ts.map (fun t => (req, t)))).2 req tR).2
        req.clientKey (t2 / W) + 1 ≤ Q by rw [hsc2]; omega)
  refine ⟨by rw [hrun.1, hlen], ?_, ?_, by rw [hall]⟩
  · rw [hrej]
    show Decision.rejected ((tR / W + 1) * W) = Decision.rejected ((w + 1) * W)
    rw [htR]
  have h1 : w * W ≤ tR := by
    rw [← htR]; exact Nat.div_mul_le_self tR W
  calc (w + 1) * W = w * W + W := by rw [Nat.succ_mul]
  _ ≤ tR + W := Nat.add_le_add_right h1 W

/-- Witness for C9: window 10 ms, quota 2, burst at times 0 and 1, third
request at time 2 rejected with reset 10, request at time 10 allowed. -/
theorem fixed_window_quota_witness :
    (runSeq ⟨10, 2⟩ [] ([0, 1].map (fun t => (reqLogin, t)))).1 =
      List.replicate 2 (Decision.allowed false) ∧
    (limiterStep ⟨10, 2⟩ (runSeq ⟨10, 2⟩ [] ([0, 1].map (fun t => (reqLogin, t)))).2
        reqLogin 2).1 = Decision.rejected ((0 + 1) * 10) ∧
    (0 + 1) * 10 ≤ 2 + 10 ∧
    (limiterStep ⟨10, 2⟩
        (limiterStep ⟨10, 2⟩ (runSeq ⟨10, 2⟩ [] ([0, 1].map (fun t => (reqLogin, t)))).2
          reqLogin 2).2
        reqLogin 10).1 = Decision.allowed false :=
  fixed_window_quota 10 2 (by decide) (by decide) reqLogin (by decide)
    [0, 1] 0 (by decide) rfl 2 (by decide) 10 (by decide)

end StaticBucket
